import Mathlib

/-!
Shallow embedding of `src/storage.py` of the MaxProject event-attendee
directory: events, users, attendance rows with privacy tiers, and the
visibility/ranking engine `list_visible_attendees`.  Python dicts become
structures, `None` becomes `Option`, exceptions become `Except String`,
and each call to `write_data` is recorded in a `writes` log so that
persistence side effects are visible in the model.
-/

namespace EventDir

/-- An event record (`storage.py` event dicts). -/
structure Event where
  slug : String
  name : String
  description : String
  website_url : String
  start_at : String
  end_at : String
  city : String
  country : String
  tags : List String
deriving DecidableEq

/-- A user record (`storage.py` user dicts).  `verified_email_domain` is
used only for truthiness, so it is a `Bool` here. -/
structure User where
  id : String
  email : String
  name : String
  role : String
  plan : String
  subscription_status : String
  verified_email_domain : Bool
  company : String
  title : String
deriving DecidableEq

/-- An attendance row (`storage.py` attendance dicts). -/
structure Attendance where
  event_slug : String
  user_id : String
  state : String
  visibility : String
  updated_at : String
deriving DecidableEq

/-- Auxiliary rows (`side_events`, `meeting_requests`) are only inspected
through their `event_slug` key. -/
structure SlugRow where
  event_slug : String
deriving DecidableEq

/-- The persisted snapshot (`read_data` / `write_data` payload). -/
structure Store where
  events : List Event
  users : List User
  attendances : List Attendance
  side_events : List SlugRow
  meeting_requests : List SlugRow
deriving DecidableEq

/-- Payload for `create_event` / `update_event`: a dict whose keys may be
absent (`none`). `tags` is the raw comma-separated string. -/
structure EventPayload where
  slug : Option String := none
  name : Option String := none
  description : Option String := none
  website_url : Option String := none
  start_at : Option String := none
  end_at : Option String := none
  city : Option String := none
  country : Option String := none
  tags : Option String := none
deriving DecidableEq

/-- Result of a mutating operation: the Python return value or raised
`ValueError` message, together with the list of snapshots passed to
`write_data`, in order. -/
structure MutResult (α : Type) where
  result : Except String α
  writes : List Store

def FREE_ATTENDEE_LIMIT : Nat := 25

def PRO_ATTENDEE_LIMIT : Nat := 500

/-! String helpers mirroring the Python `str` methods used in the code. -/

/-- Python `str.strip()` (no arguments): trim whitespace on both ends. -/
def pyStrip (s : String) : String :=
  String.mk (((s.data.dropWhile Char.isWhitespace).reverse.dropWhile Char.isWhitespace).reverse)

/-- Python `str.lower()`. -/
def pyLower (s : String) : String :=
  String.mk (s.data.map Char.toLower)

/-- `needle` list is a prefix of `hay` list. -/
def listPrefixB : List Char → List Char → Bool
  | [], _ => true
  | _ :: _, [] => false
  | a :: as, b :: bs => a == b && listPrefixB as bs

/-- `needle` list occurs contiguously in `hay` list. -/
def listInfixB (needle : List Char) : List Char → Bool
  | [] => listPrefixB needle []
  | b :: bs => listPrefixB needle (b :: bs) || listInfixB needle bs

/-- Python `needle in hay` on strings: substring containment. -/
def strContainsB (hay needle : String) : Bool :=
  listInfixB needle.data hay.data

/-- Python `value.split(",")`: split at every comma; an empty input
yields `[""]`. -/
def splitCommaAux : List Char → List Char → List String
  | [], acc => [String.mk acc.reverse]
  | c :: rest, acc =>
    if c == ',' then String.mk acc.reverse :: splitCommaAux rest []
    else splitCommaAux rest (c :: acc)

/-- Python `value.split(",")` on a string. -/
def pySplitComma (s : String) : List String :=
  splitCommaAux s.data []

/-- Python `value.split(",")` followed by per-token `strip()` and
dropping empty tokens, as in the tag parsing of `create_event`. -/
def splitTags (s : String) : List String :=
  ((pySplitComma s).map pyStrip).filter (fun tok => !tok.isEmpty)

/-- Python `a or b` for an optional string `a`: `none` and `""` fall
through to the default. -/
def orElseStr (a : Option String) (dflt : String) : String :=
  match a with
  | some s => if s.isEmpty then dflt else s
  | none => dflt

/-- One pass of Python `safe.replace("--", "-")`: left-to-right,
non-overlapping replacement of each `--` by `-`. -/
def replaceDashPair : List Char → List Char
  | '-' :: '-' :: rest => '-' :: replaceDashPair rest
  | c :: rest => c :: replaceDashPair rest
  | [] => []

/-- Does the list contain two consecutive dashes (`"--" in safe`)? -/
def hasDashPair : List Char → Bool
  | '-' :: '-' :: _ => true
  | _ :: rest => hasDashPair rest
  | [] => false

/-- The `while "--" in safe: safe = safe.replace("--", "-")` loop of
`_slugify`, run with explicit fuel (each replacement shortens the list,
so `fuel = length` always reaches the fixed point). -/
def collapseDashes : Nat → List Char → List Char
  | 0, s => s
  | fuel + 1, s => if hasDashPair s then collapseDashes fuel (replaceDashPair s) else s

/-- Python `safe.strip("-")`. -/
def stripDashes (s : List Char) : List Char :=
  ((s.dropWhile (fun c => c == '-')).reverse.dropWhile (fun c => c == '-')).reverse

/-- `storage._slugify`: lowercase alphanumerics, map other characters to
`-`, collapse dash runs, trim dashes at the ends. -/
def slugify (value : String) : String :=
  let safe := (pyStrip value).data.map (fun c => if c.isAlphanum then c.toLower else '-')
  String.mk (stripDashes (collapseDashes safe.length safe))

/-! Event catalog (`create_event`, `update_event`, `delete_event`). -/

/-- `storage.create_event`: derive the slug, validate, append, persist. -/
def create_event (payload : EventPayload) (store : Store) : MutResult Event :=
  let slug := slugify (orElseStr payload.slug (orElseStr payload.name ""))
  if slug.isEmpty then
    { result := .error "Slug or name is required", writes := [] }
  else if store.events.any (fun e => e.slug == slug) then
    { result := .error "Event slug already exists", writes := [] }
  else
    let event : Event := {
      slug := slug
      name := pyStrip (payload.name.getD "")
      description := pyStrip (payload.description.getD "")
      website_url := pyStrip (payload.website_url.getD "")
      start_at := pyStrip (payload.start_at.getD "")
      end_at := pyStrip (payload.end_at.getD "")
      city := pyStrip (payload.city.getD "")
      country := pyStrip (payload.country.getD "")
      tags := splitTags (payload.tags.getD "") }
    if event.name.isEmpty then
      { result := .error "Event name is required", writes := [] }
    else
      { result := .ok event,
        writes := [{ store with events := store.events ++ [event] }] }

/-- Replace the first element satisfying `p` by `x` (Python mutates the
first matching dict in place, leaving its position unchanged). -/
def replaceFirst {α : Type} (p : α → Bool) (x : α) : List α → List α
  | [] => []
  | a :: as => if p a then x :: as else a :: replaceFirst p x as

/-- The attendance rewrite performed by the slug-rename cascade of
`update_event`. -/
def cascadeSlug (oldSlug newSlug : String) (a : Attendance) : Attendance :=
  if a.event_slug == oldSlug then { a with event_slug := newSlug } else a

/-- `storage.update_event`: partial update with slug recomputation and
attendance cascade on rename, persisted as one snapshot. -/
def update_event (slug : String) (payload : EventPayload) (store : Store) : MutResult Event :=
  match store.events.find? (fun e => e.slug == slug) with
  | none => { result := .error "Event not found", writes := [] }
  | some found =>
    let new_slug := slugify (orElseStr payload.slug slug)
    if new_slug != slug && store.events.any (fun e => e.slug == new_slug) then
      { result := .error "Event slug already exists", writes := [] }
    else
      let updated : Event := {
        slug := new_slug
        name := pyStrip (payload.name.getD found.name)
        description := pyStrip (payload.description.getD found.description)
        website_url := pyStrip (payload.website_url.getD found.website_url)
        start_at := pyStrip (payload.start_at.getD found.start_at)
        end_at := pyStrip (payload.end_at.getD found.end_at)
        city := pyStrip (payload.city.getD found.city)
        country := pyStrip (payload.country.getD found.country)
        tags := splitTags (payload.tags.getD (String.intercalate "," found.tags)) }
      let events2 := replaceFirst (fun e => e.slug == slug) updated store.events
      let attendances2 :=
        if new_slug != slug then store.attendances.map (cascadeSlug slug new_slug)
        else store.attendances
      { result := .ok updated,
        writes := [{ store with events := events2, attendances := attendances2 }] }

/-- `storage.delete_event`: remove the event and cascade-delete dependent
rows in the other collections. -/
def delete_event (slug : String) (store : Store) : MutResult Unit :=
  let events2 := store.events.filter (fun e => !(e.slug == slug))
  if events2.length == store.events.length then
    { result := .error "Event not found", writes := [] }
  else
    let store2 : Store := {
      events := events2
      users := store.users
      attendances := store.attendances.filter (fun a => !(a.event_slug == slug))
      side_events := store.side_events.filter (fun s => !(s.event_slug == slug))
      meeting_requests := store.meeting_requests.filter (fun m => !(m.event_slug == slug)) }
    { result := .ok (), writes := [store2] }

/-! Attendance ledger. -/

/-- The `(event_slug, user_id)` key test used by `upsert_attendance` and
`get_attendance_for_user`. -/
def upsertKey (event_slug user_id : String) (row : Attendance) : Bool :=
  row.event_slug == event_slug && row.user_id == user_id

/-- `storage.upsert_attendance` with the server-side timestamp
(`now_iso()`) passed in explicitly as `now`. -/
def upsert_attendance (event_slug user_id state visibility now : String) (store : Store) : MutResult Attendance :=
  if !(state == "INTERESTED" || state == "ATTENDING") then
    { result := .error "Invalid attendance state", writes := [] }
  else if !(visibility == "PUBLIC" || visibility == "VERIFIED_ONLY" || visibility == "PRIVATE") then
    { result := .error "Invalid attendance visibility", writes := [] }
  else if !(store.events.any (fun e => e.slug == event_slug)) then
    { result := .error "Event not found", writes := [] }
  else
    match store.attendances.find? (upsertKey event_slug user_id) with
    | some existing =>
      let updatedRow : Attendance :=
        { existing with state := state, visibility := visibility, updated_at := now }
      { result := .ok updatedRow,
        writes := [{ store with
          attendances := replaceFirst (upsertKey event_slug user_id) updatedRow store.attendances }] }
    | none =>
      let created : Attendance := {
        event_slug := event_slug
        user_id := user_id
        state := state
        visibility := visibility
        updated_at := now }
      { result := .ok created,
        writes := [{ store with attendances := store.attendances ++ [created] }] }

/-! Visibility and ranking engine (`list_visible_attendees`). -/

/-- `storage.can_view_verified_only`. -/
def can_view_verified_only : Option User → Bool
  | none => false
  | some viewer =>
    if viewer.role == "ADMIN" then true
    else if viewer.verified_email_domain then true
    else viewer.plan == "PRO" && viewer.subscription_status == "ACTIVE"

/-- `storage.attendee_limit`. -/
def attendee_limit (viewer : Option User) : Nat :=
  match viewer with
  | some v =>
    if v.role == "ADMIN" || (v.plan == "PRO" && v.subscription_status == "ACTIVE") then
      PRO_ATTENDEE_LIMIT
    else FREE_ATTENDEE_LIMIT
  | none => FREE_ATTENDEE_LIMIT

/-- The `users = {str(u["id"]): u for u in data["users"]}` dict of
`list_visible_attendees`: later list entries overwrite earlier ones, so
a lookup returns the last user with the requested id. -/
def userIndexLookup (users : List User) (uid : String) : Option User :=
  users.reverse.find? (fun u => u.id == uid)

/-- The `viewer and viewer.get("role") == "ADMIN"` test. -/
def isAdminViewer : Option User → Bool
  | some v => v.role == "ADMIN"
  | none => false

/-- The `viewer and viewer.get("id") == row.get("user_id")` test of the
`PRIVATE` branch. -/
def viewerOwnsRow (viewer : Option User) (row : Attendance) : Bool :=
  match viewer with
  | some v => v.id == row.user_id
  | none => false

/-- The per-row disclosure predicate of `list_visible_attendees`
(the `can_see` if/elif chain, initialised to `False`). -/
def canSee (viewer : Option User) (row : Attendance) : Bool :=
  if isAdminViewer viewer then true
  else if row.visibility == "PUBLIC" then true
  else if row.visibility == "VERIFIED_ONLY" then can_view_verified_only viewer
  else if row.visibility == "PRIVATE" then viewerOwnsRow viewer row
  else false

/-- Python truthiness of an optional string (`None` and `""` are falsy),
used for the `state`/`company`/`title` filter guards. -/
def optTruthy : Option String → Bool
  | some s => !s.isEmpty
  | none => false

/-- One iteration of the row loop of `list_visible_attendees`: `none`
when one of the `continue` guards fires, otherwise the resolved user and
the surviving row.  `c` and `t` are the already stripped/lowered filter
strings. -/
def visitRow (users : List User) (viewer : Option User) (c t : String) (state : Option String) (row : Attendance) : Option (User × Attendance) :=
  if optTruthy state && !(row.state == state.getD "") then none
  else
    match userIndexLookup users row.user_id with
    | none => none
    | some user =>
      if !(canSee viewer row) then none
      else if !c.isEmpty && !(strContainsB (pyLower user.company) c) then none
      else if !t.isEmpty && !(strContainsB (pyLower user.title) t) then none
      else some (user, row)

/-- The composite sort key `(str(updated_at), str(user_id))`. -/
def attKey (a : Attendance) : String × String := (a.updated_at, a.user_id)

/-- Lexicographic order on the composite key, i.e. Python tuple `<=` on
pairs of strings. -/
def pairLe (x y : String × String) : Prop :=
  x.1 < y.1 ∨ (x.1 = y.1 ∧ x.2 ≤ y.2)

instance pairLe.decidable : ∀ x y, Decidable (pairLe x y) := fun _ _ =>
  inferInstanceAs (Decidable (Or _ _))

/-- `a` may come before `b` in the `reverse=True` sort: descending
composite keys. -/
def attGe (a b : Attendance) : Prop := pairLe (attKey b) (attKey a)

instance attGe.decidable : DecidableRel attGe := fun a b =>
  inferInstanceAs (Decidable (pairLe (attKey b) (attKey a)))

/-- The event's rows sorted descending by `(updated_at, user_id)`
(`rows.sort(key=..., reverse=True)`). -/
def sortedEventRows (store : Store) (event_slug : String) : List Attendance :=
  List.insertionSort attGe (store.attendances.filter (fun a => a.event_slug == event_slug))

/-- The `(company or "").strip().lower()` normalisation applied to the
optional `company`/`title` filter arguments. -/
def normFilter (o : Option String) : String :=
  pyLower (pyStrip (o.getD ""))

/-- The `visible` list of `list_visible_attendees` before projection:
each surviving row paired with its resolved user. -/
def visibleWithUsers (store : Store) (event_slug : String) (viewer : Option User) (company title state : Option String) : List (User × Attendance) :=
  (sortedEventRows store event_slug).filterMap
    (visitRow store.users viewer (normFilter company) (normFilter title) state)

/-- The projected disclosure record appended to `visible`. -/
structure AttendeeItem where
  user_id : String
  name : String
  email : String
  company : String
  title : String
  state : String
  visibility : String
  updated_at : String
deriving DecidableEq

/-- Projection of a surviving `(user, row)` pair into the disclosure
record. -/
def projectRow (p : User × Attendance) : AttendeeItem :=
  { user_id := p.1.id
    name := p.1.name
    email := p.1.email
    company := p.1.company
    title := p.1.title
    state := p.2.state
    visibility := p.2.visibility
    updated_at := p.2.updated_at }

/-- Return value of `list_visible_attendees`. -/
structure ListResult where
  items : List AttendeeItem
  total_visible : Nat
  limit : Nat
deriving DecidableEq

/-- `storage.list_visible_attendees`. -/
def list_visible_attendees (store : Store) (event_slug : String) (viewer : Option User) (company title state : Option String) : ListResult :=
  let visible := (visibleWithUsers store event_slug viewer company title state).map projectRow
  let limit := attendee_limit viewer
  { items := visible.take limit, total_visible := visible.length, limit := limit }

/-! Statement-side predicates used to phrase the claims. -/

/-- The viewer tier that receives `PRO_ATTENDEE_LIMIT`: an existing
viewer that is an `ADMIN` or an active-`PRO` subscriber. -/
def upgradedViewer (viewer : Option User) : Prop :=
  ∃ v, viewer = some v ∧ (v.role = "ADMIN" ∨ (v.plan = "PRO" ∧ v.subscription_status = "ACTIVE"))

/-- All guards of the row loop other than the disclosure predicate:
state filter, user resolution (to `user`), and the company/title
substring filters (`c`, `t` already normalised). -/
def passesOtherGuards (users : List User) (c t : String) (st : Option String) (user : User) (row : Attendance) : Prop :=
  (optTruthy st && !(row.state == st.getD "")) = false ∧
  userIndexLookup users row.user_id = some user ∧
  (!c.isEmpty && !(strContainsB (pyLower user.company) c)) = false ∧
  (!t.isEmpty && !(strContainsB (pyLower user.title) t)) = false

/-- The descending composite-key order on projected items, i.e.
`(a.updated_at, a.user_id) >= (b.updated_at, b.user_id)` for `a`
listed before `b`. -/
def itemGe (i j : AttendeeItem) : Prop :=
  pairLe (j.updated_at, j.user_id) (i.updated_at, i.user_id)

/-- Fields of an attendance row other than `updated_at`. -/
def attCore (a : Attendance) : String × String × String × String :=
  (a.event_slug, a.user_id, a.state, a.visibility)

/-- Number of attendance rows recorded for one event. -/
def eventAttendanceCount (store : Store) (event_slug : String) : Nat :=
  (store.attendances.filter (fun a => a.event_slug == event_slug)).length

/-! Order lemmas for the composite sort key. -/

theorem pairLe_total (x y : String × String) : pairLe x y ∨ pairLe y x := by
  rcases lt_trichotomy x.1 y.1 with h | h | h
  · exact Or.inl (Or.inl h)
  · rcases le_total x.2 y.2 with h2 | h2
    · exact Or.inl (Or.inr ⟨h, h2⟩)
    · exact Or.inr (Or.inr ⟨h.symm, h2⟩)
  · exact Or.inr (Or.inl h)

theorem pairLe_trans {x y z : String × String} (h1 : pairLe x y) (h2 : pairLe y z) : pairLe x z := by
  rcases h1 with h1 | ⟨e1, l1⟩
  · rcases h2 with h2 | ⟨e2, l2⟩
    · exact Or.inl (lt_trans h1 h2)
    · exact Or.inl (e2 ▸ h1)
  · rcases h2 with h2 | ⟨e2, l2⟩
    · exact Or.inl (e1 ▸ h2)
    · exact Or.inr ⟨e1.trans e2, le_trans l1 l2⟩

instance attGe.total : IsTotal Attendance attGe :=
  ⟨fun a b => pairLe_total (attKey b) (attKey a)⟩

instance attGe.trans : IsTrans Attendance attGe :=
  ⟨fun _ _ _ h1 h2 => pairLe_trans h2 h1⟩

/-! Bridging lemmas between the loop body and its guard conditions. -/

theorem userIndexLookup_id {users : List User} {uid : String} {u : User}
    (h : userIndexLookup users uid = some u) : u.id = uid := by
  have hp := List.find?_some h
  simpa using hp

theorem visitRow_eq_some_iff {users : List User} {viewer : Option User} {c t : String}
    {st : Option String} {row : Attendance} {p : User × Attendance} :
    visitRow users viewer c t st row = some p ↔
      (p.2 = row ∧ passesOtherGuards users c t st p.1 row ∧ canSee viewer row = true) := by
  constructor
  · intro h
    unfold visitRow at h
    by_cases h1 : (optTruthy st && !(row.state == st.getD "")) = true
    · simp [h1] at h
    · rw [Bool.not_eq_true] at h1
      rcases hu : userIndexLookup users row.user_id with _ | u
      · simp [h1, hu] at h
      · rw [hu] at h
        by_cases h2 : canSee viewer row = true
        · by_cases h3 : (!c.isEmpty && !(strContainsB (pyLower u.company) c)) = true
          · simp [h1, h2, h3] at h
          · rw [Bool.not_eq_true] at h3
            by_cases h4 : (!t.isEmpty && !(strContainsB (pyLower u.title) t)) = true
            · simp [h1, h2, h3, h4] at h
            · rw [Bool.not_eq_true] at h4
              simp only [h1, Bool.false_eq_true, if_false, h2, Bool.not_true,
                h3, h4] at h
              cases h
              exact ⟨rfl, ⟨h1, hu, h3, h4⟩, h2⟩
        · rw [Bool.not_eq_true] at h2
          simp [h1, h2] at h
  · rintro ⟨hrow, ⟨hg1, hg2, hg3, hg4⟩, hsee⟩
    rcases p with ⟨user, row2⟩
    cases hrow
    unfold visitRow
    rw [hg1, hg2]
    simp [hsee, hg3, hg4]

theorem mem_visibleWithUsers {store : Store} {slug : String} {viewer : Option User}
    {company title st : Option String} {p : User × Attendance} :
    p ∈ visibleWithUsers store slug viewer company title st ↔
      ∃ row, row ∈ store.attendances ∧ row.event_slug = slug ∧
        visitRow store.users viewer (normFilter company) (normFilter title) st row = some p := by
  unfold visibleWithUsers sortedEventRows
  rw [List.mem_filterMap]
  constructor
  · rintro ⟨row, hmem, hvr⟩
    rw [List.mem_insertionSort, List.mem_filter] at hmem
    exact ⟨row, hmem.1, by simpa using hmem.2, hvr⟩
  · rintro ⟨row, hmem, hslug, hvr⟩
    exact ⟨row, by rw [List.mem_insertionSort, List.mem_filter]; exact ⟨hmem, by simpa using hslug⟩, hvr⟩

/-! Concrete records used by the witnesses and counterexamples. -/

def aliceUser : User :=
  { id := "alice", email := "alice@example.com", name := "Alice", role := "USER",
    plan := "FREE", subscription_status := "NONE", verified_email_domain := false,
    company := "Acme", title := "Engineer" }

def bobAdmin : User :=
  { id := "bob", email := "bob@example.com", name := "Bob", role := "ADMIN",
    plan := "FREE", subscription_status := "NONE", verified_email_domain := false,
    company := "Initech", title := "Director" }

def caraVerified : User :=
  { id := "cara", email := "cara@example.com", name := "Cara", role := "USER",
    plan := "FREE", subscription_status := "NONE", verified_email_domain := true,
    company := "Globex", title := "Analyst" }

def devconfEvent : Event :=
  { slug := "devconf", name := "DevConf", description := "", website_url := "",
    start_at := "2025-06-01", end_at := "2025-06-02", city := "Lisbon", country := "PT",
    tags := [] }

def privateRowAlice : Attendance :=
  { event_slug := "devconf", user_id := "alice", state := "ATTENDING",
    visibility := "PRIVATE", updated_at := "2025-01-02T10:00:00Z" }

def verifiedRowAlice : Attendance :=
  { event_slug := "devconf", user_id := "alice", state := "INTERESTED",
    visibility := "VERIFIED_ONLY", updated_at := "2025-01-03T10:00:00Z" }

def oddRowAlice : Attendance :=
  { event_slug := "devconf", user_id := "alice", state := "ATTENDING",
    visibility := "SECRET", updated_at := "2025-01-04T10:00:00Z" }

def storePrivate : Store :=
  { events := [devconfEvent], users := [aliceUser, bobAdmin],
    attendances := [privateRowAlice], side_events := [], meeting_requests := [] }

def storeVerified : Store :=
  { events := [devconfEvent], users := [aliceUser, caraVerified],
    attendances := [verifiedRowAlice], side_events := [], meeting_requests := [] }

def storeOdd : Store :=
  { events := [devconfEvent], users := [aliceUser, bobAdmin],
    attendances := [oddRowAlice], side_events := [], meeting_requests := [] }

def storeNoAtt : Store :=
  { events := [devconfEvent], users := [aliceUser],
    attendances := [], side_events := [], meeting_requests := [] }

def emptyStore : Store :=
  { events := [], users := [], attendances := [], side_events := [], meeting_requests := [] }

/-! C1 -/

/-- C1 counterexample: the claim quantifies over every viewer whose id
differs from the row's `user_id`, but an `ADMIN` viewer with a different
id does receive a `PRIVATE` row in `items` and it is counted in
`total_visible` (the admin-override branch of the disclosure predicate
fires before the `PRIVATE` branch). -/
theorem c1_counterexample :
    privateRowAlice.visibility = "PRIVATE" ∧
    bobAdmin.id ≠ privateRowAlice.user_id ∧
    (list_visible_attendees storePrivate "devconf" (some bobAdmin) none none none).items =
      [projectRow (aliceUser, privateRowAlice)] ∧
    (list_visible_attendees storePrivate "devconf" (some bobAdmin) none none none).total_visible = 1 :=
  ⟨rfl, by decide, rfl, rfl⟩

/-- C1 (amended): for every `PRIVATE` attendance row, an anonymous
viewer, or any non-`ADMIN` viewer whose id differs from the row's
`user_id`, never receives that row among the surviving pairs feeding
`items`, and it is not counted in `total_visible` (which counts exactly
the surviving pairs). -/
theorem c1_private_hidden (store : Store) (slug : String) (viewer : Option User)
    (company title st : Option String) (row : Attendance)
    (hvis : row.visibility = "PRIVATE")
    (hview : viewer = none ∨ ∃ v, viewer = some v ∧ v.role ≠ "ADMIN" ∧ v.id ≠ row.user_id) :
    (∀ p ∈ visibleWithUsers store slug viewer company title st, p.2 ≠ row) ∧
    (list_visible_attendees store slug viewer company title st).items =
      ((visibleWithUsers store slug viewer company title st).map projectRow).take
        (attendee_limit viewer) ∧
    (list_visible_attendees store slug viewer company title st).total_visible =
      (visibleWithUsers store slug viewer company title st).length := by
  refine ⟨?_, rfl, by simp [list_visible_attendees]⟩
  intro p hp hpr
  rcases mem_visibleWithUsers.mp hp with ⟨row', _, _, hvr⟩
  rcases visitRow_eq_some_iff.mp hvr with ⟨hp2, _, hsee⟩
  have hrr : row' = row := by rw [← hp2, hpr]
  subst hrr
  have hadmin : isAdminViewer viewer = false := by
    rcases hview with h | ⟨v, hv, hrole, _⟩
    · rw [h]; rfl
    · rw [hv]
      simp only [isAdminViewer]
      simp [hrole]
  have hown : viewerOwnsRow viewer row' = false := by
    rcases hview with h | ⟨v, hv, _, hid⟩
    · rw [h]; rfl
    · rw [hv]
      simp only [viewerOwnsRow]
      simp [hid]
  rw [canSee, hadmin, hvis] at hsee
  simp [hown] at hsee

/-- C1 witness: the amended statement applied to a concrete store with a
single `PRIVATE` row and an anonymous viewer. -/
theorem c1_witness :
    (∀ p ∈ visibleWithUsers storePrivate "devconf" none none none none,
      p.2 ≠ privateRowAlice) ∧
    (list_visible_attendees storePrivate "devconf" none none none none).items =
      ((visibleWithUsers storePrivate "devconf" none none none none).map projectRow).take
        (attendee_limit none) ∧
    (list_visible_attendees storePrivate "devconf" none none none none).total_visible =
      (visibleWithUsers storePrivate "devconf" none none none none).length :=
  c1_private_hidden storePrivate "devconf" none none none none privateRowAlice rfl (Or.inl rfl)

/-! C2 -/

/-- C2: a `VERIFIED_ONLY` row is disclosed exactly according to
`can_view_verified_only`: the `can_see` value for such a row equals the
predicate, and membership in the surviving list is equivalent to the
predicate holding together with the non-privacy guards (event match,
state filter, user resolution, company/title filters). -/
theorem c2_verified_only (store : Store) (slug : String) (viewer : Option User)
    (company title st : Option String) (row : Attendance)
    (hvis : row.visibility = "VERIFIED_ONLY") :
    canSee viewer row = can_view_verified_only viewer ∧
    (∀ user : User,
      (user, row) ∈ visibleWithUsers store slug viewer company title st ↔
        (row ∈ store.attendances ∧ row.event_slug = slug ∧
         passesOtherGuards store.users (normFilter company) (normFilter title) st user row ∧
         can_view_verified_only viewer = true)) := by
  have hsee : canSee viewer row = can_view_verified_only viewer := by
    unfold canSee
    by_cases ha : isAdminViewer viewer = true
    · rw [if_pos ha]
      rcases viewer with _ | v
      · simp [isAdminViewer] at ha
      · simp only [isAdminViewer] at ha
        simp only [can_view_verified_only]
        rw [ha]
        simp
    · rw [if_neg ha, hvis]
      simp
  refine ⟨hsee, fun user => ?_⟩
  rw [mem_visibleWithUsers]
  constructor
  · rintro ⟨row', hmem, hslug, hvr⟩
    rcases visitRow_eq_some_iff.mp hvr with ⟨hp2, hguards, hcs⟩
    have : row = row' := hp2
    subst this
    exact ⟨hmem, hslug, hguards, by rw [← hsee]; exact hcs⟩
  · rintro ⟨hmem, hslug, hguards, hv⟩
    exact ⟨row, hmem, hslug,
      visitRow_eq_some_iff.mpr ⟨rfl, hguards, by rw [hsee]; exact hv⟩⟩

/-- C2 witness: concrete store with one `VERIFIED_ONLY` row and a viewer
with a verified email domain. -/
theorem c2_witness :
    canSee (some caraVerified) verifiedRowAlice = can_view_verified_only (some caraVerified) ∧
    (∀ user : User,
      (user, verifiedRowAlice) ∈
          visibleWithUsers storeVerified "devconf" (some caraVerified) none none none ↔
        (verifiedRowAlice ∈ storeVerified.attendances ∧
         verifiedRowAlice.event_slug = "devconf" ∧
         passesOtherGuards storeVerified.users (normFilter none) (normFilter none) none user
           verifiedRowAlice ∧
         can_view_verified_only (some caraVerified) = true)) :=
  c2_verified_only storeVerified "devconf" (some caraVerified) none none none verifiedRowAlice rfl

/-! C3 -/

/-- C3: every call returns at most `limit` items, the limit is `500`
exactly for an existing `ADMIN` or active-`PRO` viewer, and `25` in
every other case (anonymous viewers included). -/
theorem c3_tier_limit (store : Store) (slug : String) (viewer : Option User)
    (company title st : Option String) :
    (list_visible_attendees store slug viewer company title st).items.length ≤
      (list_visible_attendees store slug viewer company title st).limit ∧
    ((list_visible_attendees store slug viewer company title st).limit = 500 ↔
      upgradedViewer viewer) ∧
    (¬ upgradedViewer viewer →
      (list_visible_attendees store slug viewer company title st).limit = 25) := by
  have hlim : (list_visible_attendees store slug viewer company title st).limit
      = attendee_limit viewer := rfl
  have hsome : ∀ v : User, attendee_limit (some v) =
      if (v.role == "ADMIN" || (v.plan == "PRO" && v.subscription_status == "ACTIVE")) = true
      then PRO_ATTENDEE_LIMIT else FREE_ATTENDEE_LIMIT := fun _ => rfl
  have hup : attendee_limit viewer = 500 ↔ upgradedViewer viewer := by
    unfold upgradedViewer
    rcases viewer with _ | v
    · simp [attendee_limit, FREE_ATTENDEE_LIMIT]
    · rw [hsome v]
      by_cases hc : (v.role == "ADMIN" || (v.plan == "PRO" && v.subscription_status == "ACTIVE")) = true
      · rw [if_pos hc]
        simp only [Bool.or_eq_true, Bool.and_eq_true, beq_iff_eq] at hc
        simp only [PRO_ATTENDEE_LIMIT]
        constructor
        · intro _
          exact ⟨v, rfl, hc⟩
        · intro _
          trivial
      · rw [if_neg hc]
        simp only [Bool.or_eq_true, Bool.and_eq_true, beq_iff_eq] at hc
        simp only [FREE_ATTENDEE_LIMIT]
        constructor
        · intro h
          exact absurd h (by decide)
        · rintro ⟨w, hw, hcond⟩
          cases hw
          exact absurd hcond hc
  refine ⟨?_, by rw [hlim]; exact hup, ?_⟩
  · show (List.take (attendee_limit viewer) _).length ≤ attendee_limit viewer
    rw [List.length_take]
    exact min_le_left _ _
  · intro h
    rw [hlim]
    rcases viewer with _ | v
    · rfl
    · rw [hsome v]
      by_cases hc : (v.role == "ADMIN" || (v.plan == "PRO" && v.subscription_status == "ACTIVE")) = true
      · exfalso
        apply h
        simp only [Bool.or_eq_true, Bool.and_eq_true, beq_iff_eq] at hc
        exact ⟨v, rfl, hc⟩
      · rw [if_neg hc]
        rfl

/-- C3 witness: a free viewer on the concrete store gets limit 25, and
the statement's implications are discharged at that input. -/
theorem c3_witness :
    (list_visible_attendees storePrivate "devconf" (some aliceUser) none none none).limit = 25 :=
  (c3_tier_limit storePrivate "devconf" (some aliceUser) none none none).2.2
    (by rintro ⟨v, hv, hc⟩; cases hv; revert hc; decide)

/-! C4 -/

/-- C4: `items` is the prefix of length `min limit total_visible` of the
visible list (the projected survivors in descending composite-key
order), `total_visible` counts the survivors before truncation, and any
two returned rows are ordered by descending `(updated_at, user_id)`. -/
theorem c4_ordering (store : Store) (slug : String) (viewer : Option User)
    (company title st : Option String) :
    (list_visible_attendees store slug viewer company title st).items =
      ((visibleWithUsers store slug viewer company title st).map projectRow).take
        (attendee_limit viewer) ∧
    (list_visible_attendees store slug viewer company title st).total_visible =
      ((visibleWithUsers store slug viewer company title st).map projectRow).length ∧
    (list_visible_attendees store slug viewer company title st).items.length =
      min (list_visible_attendees store slug viewer company title st).limit
        (list_visible_attendees store slug viewer company title st).total_visible ∧
    List.Sorted itemGe (list_visible_attendees store slug viewer company title st).items := by
  refine ⟨rfl, rfl, ?_, ?_⟩
  · show (List.take (attendee_limit viewer) _).length = _
    rw [List.length_take]
    rfl
  · have hsorted : List.Sorted attGe (sortedEventRows store slug) :=
      List.sorted_insertionSort attGe _
    have h2 : List.Pairwise (fun p q : User × Attendance => itemGe (projectRow p) (projectRow q))
        (visibleWithUsers store slug viewer company title st) := by
      unfold visibleWithUsers
      refine List.Pairwise.filterMap _ ?_ hsorted
      intro a b hab p hp q hq
      rw [Option.mem_def] at hp hq
      rcases visitRow_eq_some_iff.mp hp with ⟨hp2, ⟨_, hpu, _, _⟩, _⟩
      rcases visitRow_eq_some_iff.mp hq with ⟨hq2, ⟨_, hqu, _, _⟩, _⟩
      have hpid : p.1.id = a.user_id := userIndexLookup_id hpu
      have hqid : q.1.id = b.user_id := userIndexLookup_id hqu
      show pairLe ((projectRow q).updated_at, (projectRow q).user_id)
        ((projectRow p).updated_at, (projectRow p).user_id)
      have hpkey : ((projectRow p).updated_at, (projectRow p).user_id) = attKey a := by
        simp only [projectRow, attKey, hp2, hpid]
      have hqkey : ((projectRow q).updated_at, (projectRow q).user_id) = attKey b := by
        simp only [projectRow, attKey, hq2, hqid]
      rw [hpkey, hqkey]
      exact hab
    have h3 : List.Pairwise itemGe
        ((visibleWithUsers store slug viewer company title st).map projectRow) :=
      List.Pairwise.map projectRow (fun _ _ h => h) h2
    exact h3.sublist (List.take_sublist _ _)

/-- C4 witness: the theorem applied at a concrete call. -/
theorem c4_witness :
    (list_visible_attendees storeVerified "devconf" (some caraVerified) none none none).items =
      ((visibleWithUsers storeVerified "devconf" (some caraVerified) none none none).map
        projectRow).take (attendee_limit (some caraVerified)) ∧
    (list_visible_attendees storeVerified "devconf" (some caraVerified) none none none).total_visible =
      ((visibleWithUsers storeVerified "devconf" (some caraVerified) none none none).map
        projectRow).length ∧
    (list_visible_attendees storeVerified "devconf" (some caraVerified) none none none).items.length =
      min (list_visible_attendees storeVerified "devconf" (some caraVerified) none none none).limit
        (list_visible_attendees storeVerified "devconf" (some caraVerified) none none none).total_visible ∧
    List.Sorted itemGe
      (list_visible_attendees storeVerified "devconf" (some caraVerified) none none none).items :=
  c4_ordering storeVerified "devconf" (some caraVerified) none none none

/-! C5 -/

theorem filterMap_sublist_of_imp {α β : Type} {f g : α → Option β}
    (h : ∀ a b, f a = some b → g a = some b) :
    ∀ l : List α, List.Sublist (List.filterMap f l) (List.filterMap g l)
  | [] => by simp
  | a :: l => by
    rcases hfa : f a with _ | b
    · rcases hga : g a with _ | c
      · simpa [List.filterMap_cons, hfa, hga] using filterMap_sublist_of_imp h l
      · simp only [List.filterMap_cons, hfa, hga]
        exact List.Sublist.cons c (filterMap_sublist_of_imp h l)
    · have hgb := h a b hfa
      simp only [List.filterMap_cons, hfa, hgb]
      exact List.Sublist.cons₂ b (filterMap_sublist_of_imp h l)

/-- A row surviving the loop with company/title filters also survives it
with both filters absent (the filter guards are skipped when the
normalised filter string is empty). -/
theorem visitRow_drop_filters {users : List User} {viewer : Option User} {c t : String}
    {st : Option String} {a : Attendance} {p : User × Attendance}
    (h : visitRow users viewer c t st a = some p) :
    visitRow users viewer "" "" st a = some p := by
  rcases visitRow_eq_some_iff.mp h with ⟨h2, ⟨g1, g2, _, _⟩, hsee⟩
  exact visitRow_eq_some_iff.mpr ⟨h2, ⟨g1, g2, rfl, rfl⟩, hsee⟩

/-- C5: with any company/title filters the surviving list is a sublist
of the unfiltered visible list for the same viewer, every surviving row
passed the disclosure predicate, `total_visible` can only shrink, and
every returned item is the projection of an unfiltered-visible pair:
filters narrow the already-visible set and never surface a row hidden
by the disclosure predicate. -/
theorem c5_filters_narrow (store : Store) (slug : String) (viewer : Option User)
    (company title st : Option String) :
    List.Sublist (visibleWithUsers store slug viewer company title st)
      (visibleWithUsers store slug viewer none none st) ∧
    (∀ p ∈ visibleWithUsers store slug viewer company title st, canSee viewer p.2 = true) ∧
    (list_visible_attendees store slug viewer company title st).total_visible ≤
      (list_visible_attendees store slug viewer none none st).total_visible ∧
    (∀ i ∈ (list_visible_attendees store slug viewer company title st).items,
      i ∈ (visibleWithUsers store slug viewer none none st).map projectRow) := by
  have hsub : List.Sublist (visibleWithUsers store slug viewer company title st)
      (visibleWithUsers store slug viewer none none st) := by
    unfold visibleWithUsers
    refine filterMap_sublist_of_imp ?_ _
    intro a p hfp
    show visitRow store.users viewer (normFilter none) (normFilter none) st a = some p
    exact visitRow_drop_filters hfp
  refine ⟨hsub, ?_, ?_, ?_⟩
  · intro p hp
    rcases mem_visibleWithUsers.mp hp with ⟨row, _, _, hvr⟩
    rcases visitRow_eq_some_iff.mp hvr with ⟨h2, _, hsee⟩
    rw [h2]
    exact hsee
  · show (List.map projectRow _).length ≤ (List.map projectRow _).length
    simp only [List.length_map]
    exact hsub.length_le
  · intro i hi
    have hi2 : i ∈ (visibleWithUsers store slug viewer company title st).map projectRow :=
      (List.take_sublist _ _).subset hi
    rcases List.mem_map.mp hi2 with ⟨p, hp, rfl⟩
    exact List.mem_map_of_mem projectRow (hsub.subset hp)

/-- C5 witness: the theorem applied at a concrete filtered call. -/
theorem c5_witness :
    List.Sublist (visibleWithUsers storeVerified "devconf" (some caraVerified) (some "acme") (some "eng") none)
      (visibleWithUsers storeVerified "devconf" (some caraVerified) none none none) ∧
    (∀ p ∈ visibleWithUsers storeVerified "devconf" (some caraVerified) (some "acme") (some "eng") none,
      canSee (some caraVerified) p.2 = true) ∧
    (list_visible_attendees storeVerified "devconf" (some caraVerified) (some "acme") (some "eng") none).total_visible ≤
      (list_visible_attendees storeVerified "devconf" (some caraVerified) none none none).total_visible ∧
    (∀ i ∈ (list_visible_attendees storeVerified "devconf" (some caraVerified) (some "acme") (some "eng") none).items,
      i ∈ (visibleWithUsers storeVerified "devconf" (some caraVerified) none none none).map projectRow) :=
  c5_filters_narrow storeVerified "devconf" (some caraVerified) (some "acme") (some "eng") none

/-! C6 -/

theorem create_event_error_cases (payload : EventPayload) (store : Store) :
    (create_event payload store).writes = [] ∨
      ∀ e, (create_event payload store).result ≠ Except.error e := by
  simp only [create_event]
  split_ifs <;> first | (left; trivial) | (right; intro e h; simp at h)

theorem update_event_error_cases (slug : String) (payload : EventPayload) (store : Store) :
    (update_event slug payload store).writes = [] ∨
      ∀ e, (update_event slug payload store).result ≠ Except.error e := by
  simp only [update_event]
  rcases hfind : store.events.find? (fun e => e.slug == slug) with _ | found
  · simp only [hfind]
    left; trivial
  · simp only [hfind]
    split_ifs <;> first | (left; trivial) | (right; intro e h; simp at h)

theorem delete_event_error_cases (slug : String) (store : Store) :
    (delete_event slug store).writes = [] ∨
      ∀ e, (delete_event slug store).result ≠ Except.error e := by
  simp only [delete_event]
  split_ifs <;> first | (left; trivial) | (right; intro e h; simp at h)

theorem upsert_attendance_error_cases (es uid stv vis now : String) (store : Store) :
    (upsert_attendance es uid stv vis now store).writes = [] ∨
      ∀ e, (upsert_attendance es uid stv vis now store).result ≠ Except.error e := by
  simp only [upsert_attendance]
  split_ifs
  · left; trivial
  · left; trivial
  · left; trivial
  · rcases hf : store.attendances.find? (upsertKey es uid) with _ | existing
    · simp only [hf]
      right; intro e h; simp at h
    · simp only [hf]
      right; intro e h; simp at h

/-- C6: whenever `create_event`, `update_event`, `delete_event` or
`upsert_attendance` fails (raises, modelled as an `error` result), no
snapshot is written: the persisted store is unchanged. -/
theorem c6_no_write_on_error (store : Store) (payload : EventPayload)
    (slug es uid stv vis now : String) :
    (∀ e, (create_event payload store).result = Except.error e →
      (create_event payload store).writes = []) ∧
    (∀ e, (update_event slug payload store).result = Except.error e →
      (update_event slug payload store).writes = []) ∧
    (∀ e, (delete_event slug store).result = Except.error e →
      (delete_event slug store).writes = []) ∧
    (∀ e, (upsert_attendance es uid stv vis now store).result = Except.error e →
      (upsert_attendance es uid stv vis now store).writes = []) := by
  refine ⟨fun e he => ?_, fun e he => ?_, fun e he => ?_, fun e he => ?_⟩
  · rcases create_event_error_cases payload store with h | h
    · exact h
    · exact absurd he (h e)
  · rcases update_event_error_cases slug payload store with h | h
    · exact h
    · exact absurd he (h e)
  · rcases delete_event_error_cases slug store with h | h
    · exact h
    · exact absurd he (h e)
  · rcases upsert_attendance_error_cases es uid stv vis now store with h | h
    · exact h
    · exact absurd he (h e)

/-- C6 witness: four concrete failing calls (empty payload, unknown
slug, unknown slug, invalid state) leave the write log empty. -/
theorem c6_witness :
    (create_event {} storeNoAtt).writes = [] ∧
    (update_event "missing" {} storeNoAtt).writes = [] ∧
    (delete_event "missing" storeNoAtt).writes = [] ∧
    (upsert_attendance "devconf" "alice" "MAYBE" "PUBLIC" "t1" storeNoAtt).writes = [] := by
  have h := c6_no_write_on_error storeNoAtt {} "missing" "devconf" "alice" "MAYBE" "PUBLIC" "t1"
  exact ⟨h.1 "Slug or name is required" rfl,
    h.2.1 "Event not found" rfl,
    h.2.2.1 "Event not found" rfl,
    h.2.2.2 "Invalid attendance state" rfl⟩

/-! C7 -/

theorem replaceFirst_length {α : Type} (p : α → Bool) (x : α) :
    ∀ l : List α, (replaceFirst p x l).length = l.length
  | [] => rfl
  | a :: as => by
    unfold replaceFirst
    by_cases h : p a = true
    · rw [if_pos h]
      simp
    · rw [if_neg h]
      simp [replaceFirst_length p x as]

theorem find?_replaceFirst {α : Type} {p : α → Bool} {x m : α} (hx : p x = true) :
    ∀ {l : List α}, l.find? p = some m → (replaceFirst p x l).find? p = some x
  | [], h => by simp at h
  | a :: as, h => by
    unfold replaceFirst
    by_cases hpa : p a = true
    · rw [if_pos hpa]
      exact List.find?_cons_of_pos _ hx
    · rw [if_neg hpa]
      rw [List.find?_cons_of_neg _ hpa] at h
      rw [List.find?_cons_of_neg _ hpa]
      exact find?_replaceFirst hx h

theorem map_attCore_replaceFirst {p : Attendance → Bool} {x m : Attendance}
    (hcore : attCore x = attCore m) :
    ∀ {l : List Attendance}, l.find? p = some m →
      (replaceFirst p x l).map attCore = l.map attCore
  | [], h => by simp at h
  | a :: as, h => by
    unfold replaceFirst
    by_cases hpa : p a = true
    · rw [if_pos hpa]
      rw [List.find?_cons_of_pos _ hpa] at h
      have ham : a = m := by injection h
      simp only [List.map_cons, hcore, ham]
    · rw [if_neg hpa]
      rw [List.find?_cons_of_neg _ hpa] at h
      simp only [List.map_cons, map_attCore_replaceFirst hcore h]

theorem mem_replaceFirst_of_not {α : Type} {p : α → Bool} {x a : α} (ha : p a = false) :
    ∀ {l : List α}, a ∈ l → a ∈ replaceFirst p x l
  | b :: bs, h => by
    unfold replaceFirst
    by_cases hpb : p b = true
    · rw [if_pos hpb]
      rcases List.mem_cons.mp h with h1 | h2
      · rw [← h1, ha] at hpb
        cases hpb
      · exact List.mem_cons_of_mem _ h2
    · rw [if_neg hpb]
      rcases List.mem_cons.mp h with h1 | h2
      · rw [h1]
        exact List.mem_cons_self _ _
      · exact List.mem_cons_of_mem _ (mem_replaceFirst_of_not ha h2)

theorem eventCount_congr {l1 l2 : List Attendance}
    (h : l1.map attCore = l2.map attCore) (es : String) :
    (l1.filter (fun a => a.event_slug == es)).length =
      (l2.filter (fun a => a.event_slug == es)).length := by
  rw [← List.countP_eq_length_filter, ← List.countP_eq_length_filter]
  have h2 := congrArg (List.countP (fun c : String × String × String × String => c.1 == es)) h
  rw [List.countP_map, List.countP_map] at h2
  simpa [Function.comp] using h2

/-- C7: after a successful `upsert_attendance`, repeating the call with
identical arguments (and a possibly different server timestamp)
succeeds, changes no field other than `updated_at` of any row, and
leaves the attendance row count — overall and for that event —
unchanged. -/
theorem c7_upsert_idempotent (store : Store) (es uid stv vis n1 n2 : String)
    (r1 : Attendance) (s1 : Store)
    (h1 : upsert_attendance es uid stv vis n1 store = ⟨Except.ok r1, [s1]⟩) :
    ∃ r2 s2, upsert_attendance es uid stv vis n2 s1 = ⟨Except.ok r2, [s2]⟩ ∧
      s2.attendances.map attCore = s1.attendances.map attCore ∧
      s2.attendances.length = s1.attendances.length ∧
      eventAttendanceCount s2 es = eventAttendanceCount s1 es ∧
      (∀ a ∈ s1.attendances, upsertKey es uid a = false → a ∈ s2.attendances) := by
  simp only [upsert_attendance] at h1
  by_cases hst : (!(stv == "INTERESTED" || stv == "ATTENDING")) = true
  · rw [if_pos hst] at h1
    exact absurd (congrArg MutResult.result h1) (by simp)
  rw [if_neg hst] at h1
  by_cases hvs : (!(vis == "PUBLIC" || vis == "VERIFIED_ONLY" || vis == "PRIVATE")) = true
  · rw [if_pos hvs] at h1
    exact absurd (congrArg MutResult.result h1) (by simp)
  rw [if_neg hvs] at h1
  by_cases hev : (!(store.events.any (fun e => e.slug == es))) = true
  · rw [if_pos hev] at h1
    exact absurd (congrArg MutResult.result h1) (by simp)
  rw [if_neg hev] at h1
  rcases hfind : store.attendances.find? (upsertKey es uid) with _ | existing
  · -- first call inserted a fresh row
    rw [hfind] at h1
    have hs1 : s1 = { store with
        attendances := store.attendances ++ [⟨es, uid, stv, vis, n1⟩] } := by
      have hw := congrArg MutResult.writes h1
      simp only [List.cons.injEq, and_true] at hw
      exact hw.symm
    subst hs1
    have hxkey : upsertKey es uid (⟨es, uid, stv, vis, n2⟩ : Attendance) = true := by
      simp [upsertKey]
    have hfind2 : (store.attendances ++ [(⟨es, uid, stv, vis, n1⟩ : Attendance)]).find?
        (upsertKey es uid) = some ⟨es, uid, stv, vis, n1⟩ := by
      rw [List.find?_append, hfind]
      simp [upsertKey]
    refine ⟨(⟨es, uid, stv, vis, n2⟩ : Attendance),
      ⟨store.events, store.users,
        replaceFirst (upsertKey es uid) (⟨es, uid, stv, vis, n2⟩ : Attendance)
          (store.attendances ++ [(⟨es, uid, stv, vis, n1⟩ : Attendance)]),
        store.side_events, store.meeting_requests⟩, ?_, ?_, ?_, ?_, ?_⟩
    · simp only [upsert_attendance]
      rw [if_neg hst, if_neg hvs, if_neg hev, hfind2]
    · exact map_attCore_replaceFirst
        (show attCore (⟨es, uid, stv, vis, n2⟩ : Attendance) =
          attCore (⟨es, uid, stv, vis, n1⟩ : Attendance) from rfl) hfind2
    · exact replaceFirst_length _ _ _
    · unfold eventAttendanceCount
      exact eventCount_congr (map_attCore_replaceFirst
        (show attCore (⟨es, uid, stv, vis, n2⟩ : Attendance) =
          attCore (⟨es, uid, stv, vis, n1⟩ : Attendance) from rfl) hfind2) es
    · intro a hmem hpa
      exact mem_replaceFirst_of_not hpa hmem
  · -- first call updated the existing row in place
    rw [hfind] at h1
    have hkey : upsertKey es uid existing = true := List.find?_some hfind
    have hs1 : s1 = { store with
        attendances := replaceFirst (upsertKey es uid)
          { existing with state := stv, visibility := vis, updated_at := n1 }
          store.attendances } := by
      have hw := congrArg MutResult.writes h1
      simp only [List.cons.injEq, and_true] at hw
      exact hw.symm
    subst hs1
    have hx1 : upsertKey es uid
        ({ existing with state := stv, visibility := vis, updated_at := n1 } : Attendance) = true := by
      simpa [upsertKey] using hkey
    have hfind2 : (replaceFirst (upsertKey es uid)
        { existing with state := stv, visibility := vis, updated_at := n1 }
        store.attendances).find? (upsertKey es uid) =
          some { existing with state := stv, visibility := vis, updated_at := n1 } :=
      find?_replaceFirst hx1 hfind
    refine ⟨(⟨existing.event_slug, existing.user_id, stv, vis, n2⟩ : Attendance),
      ⟨store.events, store.users,
        replaceFirst (upsertKey es uid)
          (⟨existing.event_slug, existing.user_id, stv, vis, n2⟩ : Attendance)
          (replaceFirst (upsertKey es uid)
            (⟨existing.event_slug, existing.user_id, stv, vis, n1⟩ : Attendance)
            store.attendances),
        store.side_events, store.meeting_requests⟩, ?_, ?_, ?_, ?_, ?_⟩
    · simp only [upsert_attendance]
      rw [if_neg hst, if_neg hvs, if_neg hev, hfind2]
    · exact map_attCore_replaceFirst
        (show attCore (⟨existing.event_slug, existing.user_id, stv, vis, n2⟩ : Attendance) =
          attCore (⟨existing.event_slug, existing.user_id, stv, vis, n1⟩ : Attendance) from rfl)
        hfind2
    · exact replaceFirst_length _ _ _
    · unfold eventAttendanceCount
      exact eventCount_congr (map_attCore_replaceFirst
        (show attCore (⟨existing.event_slug, existing.user_id, stv, vis, n2⟩ : Attendance) =
          attCore (⟨existing.event_slug, existing.user_id, stv, vis, n1⟩ : Attendance) from rfl)
        hfind2) es
    · intro a hmem hpa
      exact mem_replaceFirst_of_not hpa hmem

def w7row : Attendance :=
  { event_slug := "devconf", user_id := "alice", state := "INTERESTED",
    visibility := "PUBLIC", updated_at := "t1" }

def w7store : Store :=
  { events := [devconfEvent], users := [aliceUser],
    attendances := [w7row], side_events := [], meeting_requests := [] }

/-- C7 witness: a concrete first upsert on a store with no attendance,
followed by the guaranteed second upsert. -/
theorem c7_witness :
    ∃ r2 s2, upsert_attendance "devconf" "alice" "INTERESTED" "PUBLIC" "t2" w7store =
        ⟨Except.ok r2, [s2]⟩ ∧
      s2.attendances.map attCore = w7store.attendances.map attCore ∧
      s2.attendances.length = w7store.attendances.length ∧
      eventAttendanceCount s2 "devconf" = eventAttendanceCount w7store "devconf" ∧
      (∀ a ∈ w7store.attendances, upsertKey "devconf" "alice" a = false → a ∈ s2.attendances) :=
  c7_upsert_idempotent storeNoAtt "devconf" "alice" "INTERESTED" "PUBLIC" "t1" "t2"
    w7row w7store rfl

/-! C8 -/

/-- C8: when `update_event` succeeds and renames the slug (`ev.slug`
differs from the old slug), the single persisted snapshot rewrites
exactly the attendance rows carrying the old slug to the new slug,
leaving every other field and every other row unchanged and preserving
the row count. -/
theorem c8_rename_cascade (store : Store) (slug : String) (payload : EventPayload)
    (ev : Event)
    (hok : (update_event slug payload store).result = Except.ok ev)
    (hren : ev.slug ≠ slug) :
    ∃ s1, (update_event slug payload store).writes = [s1] ∧
      s1.attendances = store.attendances.map (cascadeSlug slug ev.slug) ∧
      s1.attendances.length = store.attendances.length ∧
      (∀ a ∈ store.attendances, a.event_slug = slug →
        (cascadeSlug slug ev.slug a).event_slug = ev.slug ∧
        cascadeSlug slug ev.slug a ∈ s1.attendances) ∧
      (∀ a ∈ store.attendances, a.event_slug ≠ slug →
        cascadeSlug slug ev.slug a = a ∧ a ∈ s1.attendances) := by
  simp only [update_event] at hok ⊢
  rcases hfind : store.events.find? (fun e => e.slug == slug) with _ | found
  · rw [hfind] at hok
    simp at hok
  · simp only [hfind] at hok ⊢
    by_cases hcol : (slugify (orElseStr payload.slug slug) != slug &&
        store.events.any (fun e => e.slug == slugify (orElseStr payload.slug slug))) = true
    · rw [if_pos hcol] at hok
      simp at hok
    · rw [if_neg hcol] at hok
      rw [if_neg hcol]
      have hev : ev = { slug := slugify (orElseStr payload.slug slug)
                        name := pyStrip (payload.name.getD found.name)
                        description := pyStrip (payload.description.getD found.description)
                        website_url := pyStrip (payload.website_url.getD found.website_url)
                        start_at := pyStrip (payload.start_at.getD found.start_at)
                        end_at := pyStrip (payload.end_at.getD found.end_at)
                        city := pyStrip (payload.city.getD found.city)
                        country := pyStrip (payload.country.getD found.country)
                        tags := splitTags (payload.tags.getD (String.intercalate "," found.tags)) } := by
        have := hok
        simp only [Except.ok.injEq] at this
        exact this.symm
      have hslug : ev.slug = slugify (orElseStr payload.slug slug) := by rw [hev]
      have hne : (slugify (orElseStr payload.slug slug) != slug) = true := by
        rw [bne_iff_ne]
        rw [← hslug]
        exact hren
      rw [if_pos hne]
      refine ⟨_, rfl, ?_, by simp, ?_, ?_⟩
      · rw [hslug]
      · intro a hmem ha
        have hb : (a.event_slug == slug) = true := by simpa using ha
        constructor
        · simp [cascadeSlug, hb]
        · rw [hslug]
          exact List.mem_map_of_mem (cascadeSlug slug (slugify (orElseStr payload.slug slug))) hmem
      · intro a hmem ha
        have hb : (a.event_slug == slug) = false := by simpa using ha
        have hid : cascadeSlug slug ev.slug a = a := by
          simp [cascadeSlug, hb]
        refine ⟨hid, ?_⟩
        rw [hslug] at hid
        have := List.mem_map_of_mem (cascadeSlug slug (slugify (orElseStr payload.slug slug))) hmem
        rwa [hid] at this

def renamePayload : EventPayload := { slug := some "DevConf EU" }

def renamedEvent : Event :=
  { slug := "devconf-eu", name := "DevConf", description := "", website_url := "",
    start_at := "2025-06-01", end_at := "2025-06-02", city := "Lisbon", country := "PT",
    tags := [] }

/-- C8 witness: a concrete rename of `devconf` to `devconf-eu` with one
attendance row on the old slug. -/
theorem c8_witness :
    ∃ s1, (update_event "devconf" renamePayload storePrivate).writes = [s1] ∧
      s1.attendances = storePrivate.attendances.map (cascadeSlug "devconf" renamedEvent.slug) ∧
      s1.attendances.length = storePrivate.attendances.length ∧
      (∀ a ∈ storePrivate.attendances, a.event_slug = "devconf" →
        (cascadeSlug "devconf" renamedEvent.slug a).event_slug = renamedEvent.slug ∧
        cascadeSlug "devconf" renamedEvent.slug a ∈ s1.attendances) ∧
      (∀ a ∈ storePrivate.attendances, a.event_slug ≠ "devconf" →
        cascadeSlug "devconf" renamedEvent.slug a = a ∧ a ∈ s1.attendances) :=
  c8_rename_cascade storePrivate "devconf" renamePayload renamedEvent rfl (by decide)

/-! C9 -/

def evFooBar : Event :=
  { slug := "foo-bar", name := "Foo Bar", description := "", website_url := "",
    start_at := "", end_at := "", city := "", country := "", tags := [] }

def slugClashEvent : Event :=
  { slug := "foo-bar", name := "Existing Event", description := "", website_url := "",
    start_at := "", end_at := "", city := "", country := "", tags := [] }

def clashStore : Store :=
  { events := [slugClashEvent], users := [], attendances := [],
    side_events := [], meeting_requests := [] }

/-- Successful-path equation for `create_event` under the three
validation conditions. -/
theorem create_event_ok (payload : EventPayload) (store : Store)
    (h1 : (slugify (orElseStr payload.slug (orElseStr payload.name ""))).isEmpty = false)
    (h2 : store.events.any
      (fun e => e.slug == slugify (orElseStr payload.slug (orElseStr payload.name ""))) = false)
    (h3 : (pyStrip (payload.name.getD "")).isEmpty = false) :
    create_event payload store =
      ⟨Except.ok ⟨slugify (orElseStr payload.slug (orElseStr payload.name "")),
          pyStrip (payload.name.getD ""), pyStrip (payload.description.getD ""),
          pyStrip (payload.website_url.getD ""), pyStrip (payload.start_at.getD ""),
          pyStrip (payload.end_at.getD ""), pyStrip (payload.city.getD ""),
          pyStrip (payload.country.getD ""), splitTags (payload.tags.getD "")⟩,
        [⟨store.events ++ [⟨slugify (orElseStr payload.slug (orElseStr payload.name "")),
            pyStrip (payload.name.getD ""), pyStrip (payload.description.getD ""),
            pyStrip (payload.website_url.getD ""), pyStrip (payload.start_at.getD ""),
            pyStrip (payload.end_at.getD ""), pyStrip (payload.city.getD ""),
            pyStrip (payload.country.getD ""), splitTags (payload.tags.getD "")⟩],
          store.users, store.attendances, store.side_events, store.meeting_requests⟩]⟩ := by
  simp only [create_event, h1, Bool.false_eq_true, if_false, h2, h3]

/-- Collision-path equation for `create_event`. -/
theorem create_event_collision (payload : EventPayload) (store : Store)
    (h1 : (slugify (orElseStr payload.slug (orElseStr payload.name ""))).isEmpty = false)
    (h2 : store.events.any
      (fun e => e.slug == slugify (orElseStr payload.slug (orElseStr payload.name ""))) = true) :
    (create_event payload store).result = Except.error "Event slug already exists" := by
  simp only [create_event, h1, Bool.false_eq_true, if_false, h2, if_true]

/-- C9 counterexample: the claim's precondition only excludes an event
*named* "Foo Bar"; a store holding a differently named event whose slug
is already `foo-bar` satisfies it, yet `create_event` fails with the
slug-collision `ValidationError` instead of succeeding. -/
theorem c9_counterexample :
    (∀ e ∈ clashStore.events, e.name ≠ "Foo Bar") ∧
    (create_event { slug := some "", name := some "Foo Bar" } clashStore).result =
      Except.error "Event slug already exists" :=
  ⟨by decide, rfl⟩

/-- C9 (amended): starting from a store with no event whose slug is
`foo-bar`, `create_event {slug: "", name: "Foo Bar"}` succeeds and
assigns the normalised slug `foo-bar`, and a subsequent
`create_event {name: "Foo Bar"}` fails with the slug-collision
`ValidationError`. -/
theorem c9_foobar_scenario (store : Store)
    (h : ∀ e ∈ store.events, e.slug ≠ "foo-bar") :
    ∃ ev s1,
      create_event { slug := some "", name := some "Foo Bar" } store =
        ⟨Except.ok ev, [s1]⟩ ∧
      ev.slug = "foo-bar" ∧
      s1.events = store.events ++ [ev] ∧
      (create_event { name := some "Foo Bar" } s1).result =
        Except.error "Event slug already exists" := by
  have hany : store.events.any (fun e => e.slug == "foo-bar") = false := by
    rw [List.any_eq_false]
    intro e he
    simpa using h e he
  refine ⟨evFooBar, ⟨store.events ++ [evFooBar], store.users, store.attendances,
    store.side_events, store.meeting_requests⟩, ?_, rfl, rfl, ?_⟩
  · exact create_event_ok { slug := some "", name := some "Foo Bar" } store rfl hany rfl
  · apply create_event_collision
    · rfl
    · show (store.events ++ [evFooBar]).any _ = true
      rw [List.any_append]
      have hr : ([evFooBar].any (fun e => e.slug ==
          slugify (orElseStr ({ name := some "Foo Bar" } : EventPayload).slug
            (orElseStr ({ name := some "Foo Bar" } : EventPayload).name "")))) = true := by
        decide
      rw [hr, Bool.or_true]

/-- C9 witness: the amended scenario run from the empty store. -/
theorem c9_witness :
    ∃ ev s1,
      create_event { slug := some "", name := some "Foo Bar" } emptyStore =
        ⟨Except.ok ev, [s1]⟩ ∧
      ev.slug = "foo-bar" ∧
      s1.events = emptyStore.events ++ [ev] ∧
      (create_event { name := some "Foo Bar" } s1).result =
        Except.error "Event slug already exists" :=
  c9_foobar_scenario emptyStore (by decide)

/-! C10 -/

/-- C10: a row whose `visibility` is none of the three known values is
shown exactly to `ADMIN` viewers: `can_see` degrades to the admin test,
every non-`ADMIN` viewer (the row's own user included) never receives
the row, and an `ADMIN` viewer receives it whenever the non-privacy
guards pass. -/
theorem c10_unknown_visibility (store : Store) (slug : String) (viewer : Option User)
    (company title st : Option String) (row : Attendance)
    (h1 : row.visibility ≠ "PUBLIC") (h2 : row.visibility ≠ "VERIFIED_ONLY")
    (h3 : row.visibility ≠ "PRIVATE") :
    canSee viewer row = isAdminViewer viewer ∧
    (isAdminViewer viewer = false →
      ∀ p ∈ visibleWithUsers store slug viewer company title st, p.2 ≠ row) ∧
    (∀ user : User, isAdminViewer viewer = true →
      ((user, row) ∈ visibleWithUsers store slug viewer company title st ↔
        (row ∈ store.attendances ∧ row.event_slug = slug ∧
         passesOtherGuards store.users (normFilter company) (normFilter title) st user row))) := by
  have hb1 : (row.visibility == "PUBLIC") = false := by simpa using h1
  have hb2 : (row.visibility == "VERIFIED_ONLY") = false := by simpa using h2
  have hb3 : (row.visibility == "PRIVATE") = false := by simpa using h3
  have hsee : canSee viewer row = isAdminViewer viewer := by
    unfold canSee
    by_cases ha : isAdminViewer viewer = true
    · rw [if_pos ha, ha]
    · rw [Bool.not_eq_true] at ha
      rw [ha]
      simp [hb1, hb2, hb3]
  refine ⟨hsee, ?_, ?_⟩
  · intro hadm p hp hpr
    rcases mem_visibleWithUsers.mp hp with ⟨row2, _, _, hvr⟩
    rcases visitRow_eq_some_iff.mp hvr with ⟨hp2, _, hcs⟩
    have : row2 = row := by rw [← hp2, hpr]
    subst this
    rw [hsee, hadm] at hcs
    cases hcs
  · intro user hadm
    rw [mem_visibleWithUsers]
    constructor
    · rintro ⟨row2, hmem, hslug, hvr⟩
      rcases visitRow_eq_some_iff.mp hvr with ⟨hp2, hg, _⟩
      have : row = row2 := hp2
      subst this
      exact ⟨hmem, hslug, hg⟩
    · rintro ⟨hmem, hslug, hg⟩
      exact ⟨row, hmem, hslug,
        visitRow_eq_some_iff.mpr ⟨rfl, hg, by rw [hsee, hadm]⟩⟩

/-- C10 witness: the theorem applied to a concrete row with visibility
`"SECRET"` and an anonymous viewer. -/
theorem c10_witness :
    canSee none oddRowAlice = isAdminViewer none ∧
    (isAdminViewer none = false →
      ∀ p ∈ visibleWithUsers storeOdd "devconf" none none none none, p.2 ≠ oddRowAlice) ∧
    (∀ user : User, isAdminViewer none = true →
      ((user, oddRowAlice) ∈ visibleWithUsers storeOdd "devconf" none none none none ↔
        (oddRowAlice ∈ storeOdd.attendances ∧ oddRowAlice.event_slug = "devconf" ∧
         passesOtherGuards storeOdd.users (normFilter none) (normFilter none) none user
           oddRowAlice))) :=
  c10_unknown_visibility storeOdd "devconf" none none none none oddRowAlice
    (by decide) (by decide) (by decide)

end EventDir
